import Mathlib

/-!
Verification of the onboarding-wizard state machine from
`src/quixess-onboarding-modal/src/components/OnboardingModal.jsx`.

The stateful `useOnboardingForm` hook is embedded as pure state-passing
functions over an explicit `FormState`.  JavaScript objects used as error
maps distinguish an absent key from a key stored with value `null`, so the
error map is embedded with entries of type `Option (Option String)`:
`none` means the key is absent, `some none` means the key is present and
maps to `null`, and `some (some m)` means the key maps to message `m`.
-/

set_option autoImplicit false

/-- The six form fields of the `formData` object. -/
inductive FieldName
  | fullName
  | email
  | username
  | password
  | theme
  | newsletter
deriving DecidableEq, Repr

/-- The `formData` record.  The theme is stored as in the source: the empty
string encodes "no theme selected" (the spec's `None`), otherwise the strings
produced by the UI are "Light" and "Dark". -/
structure FormData where
  fullName : String
  email : String
  username : String
  password : String
  theme : String
  newsletter : Bool
deriving DecidableEq, Repr

/-- The `errors` object.  Each entry is `none` (key absent), `some none`
(key present, mapped to JavaScript `null`) or `some (some m)` (key mapped
to the message string `m`). -/
structure ErrorMap where
  fullName : Option (Option String)
  email : Option (Option String)
  username : Option (Option String)
  password : Option (Option String)
  theme : Option (Option String)
  newsletter : Option (Option String)
deriving DecidableEq, Repr

/-- The empty errors object `{}`. -/
def emptyErrors : ErrorMap := ⟨none, none, none, none, none, none⟩

/-- Look up a field's entry in the errors object. -/
def ErrorMap.get (em : ErrorMap) : FieldName → Option (Option String)
  | .fullName => em.fullName
  | .email => em.email
  | .username => em.username
  | .password => em.password
  | .theme => em.theme
  | .newsletter => em.newsletter

/-- `{ ...em, [f]: null }`: store `null` under key `f`, keep all other
entries. -/
def ErrorMap.setNull (em : ErrorMap) : FieldName → ErrorMap
  | .fullName => { em with fullName := some none }
  | .email => { em with email := some none }
  | .username => { em with username := some none }
  | .password => { em with password := some none }
  | .theme => { em with theme := some none }
  | .newsletter => { em with newsletter := some none }

/-- JavaScript truthiness of an error-map lookup `errors[field]`: truthy
exactly when the key is present and maps to a non-empty string. -/
def entryTruthy : Option (Option String) → Bool
  | some (some m) => m != ""
  | _ => false

/-- The complete hook state: `formData`, `errors`, `currentStep`,
`isSubmitting`. -/
structure FormState where
  formData : FormData
  errors : ErrorMap
  currentStep : Nat
  isSubmitting : Bool
deriving DecidableEq, Repr

/-- The initial `formData`. -/
def initFormData : FormData :=
  { fullName := "", email := "", username := "", password := "",
    theme := "", newsletter := false }

/-- The initial hook state. -/
def initState : FormState :=
  { formData := initFormData, errors := emptyErrors, currentStep := 1,
    isSubmitting := false }

/-! ### JavaScript string primitives -/

/-- JavaScript `String.prototype.trim`: strip whitespace from both ends. -/
def jsTrim (s : String) : String :=
  ⟨((s.data.dropWhile Char.isWhitespace).reverse.dropWhile
      Char.isWhitespace).reverse⟩

/-- A character admitted by the regex class `[^\s@]`: neither whitespace
nor `@`. -/
def isEmailChar (c : Char) : Bool := !c.isWhitespace && c != '@'

/-- Split a character list at the first occurrence of `c`; `none` when `c`
does not occur. -/
def splitAtChar (c : Char) : List Char → Option (List Char × List Char)
  | [] => none
  | x :: xs =>
    if x = c then some ([], xs)
    else
      match splitAtChar c xs with
      | some (a, d) => some (x :: a, d)
      | none => none

/-- Whether a character list has a `.` that is neither its first nor its
last element, i.e. whether it splits as `B ++ [.] ++ C` with `B`, `C`
non-empty. -/
def hasInteriorDot : List Char → Bool
  | [] => false
  | _ :: rest => rest.dropLast.contains '.'

/-- The test of the source's email regex `/^[^\s@]+@[^\s@]+\.[^\s@]+$/`:
the string is `A ++ "@" ++ D` where `A` is a non-empty run of `[^\s@]`
characters, `D` consists of `[^\s@]` characters and contains an interior
dot (splitting it into the regex's two non-empty runs around a literal
dot). -/
def emailRegexTest (s : String) : Bool :=
  match splitAtChar '@' s.data with
  | none => false
  | some (a, d) =>
    !a.isEmpty && a.all isEmailChar && d.all isEmailChar && hasInteriorDot d

/-- A character admitted by the regex class `[a-zA-Z0-9_]`. -/
def usernameCharOk (c : Char) : Bool := c.isAlphanum || c == '_'

/-- The test of the source's username regex `/^[a-zA-Z0-9_]+$/`. -/
def usernameRegexTest (s : String) : Bool :=
  !s.data.isEmpty && s.data.all usernameCharOk

/-! ### The `validation` object -/

namespace validation

/-- `validation.validateEmail` from the source. -/
def validateEmail (email : String) : Option String :=
  if jsTrim email = "" then some "Email is required"
  else if emailRegexTest email then none
  else some "Please enter a valid email address"

/-- `validation.validateFullName` from the source. -/
def validateFullName (name : String) : Option String :=
  if jsTrim name = "" then some "Full name is required"
  else if (jsTrim name).length < 2 then some "Name must be at least 2 characters"
  else none

/-- `validation.validateUsername` from the source. -/
def validateUsername (username : String) : Option String :=
  if jsTrim username = "" then some "Username is required"
  else if username.length < 3 then some "Username must be at least 3 characters"
  else if !usernameRegexTest username then
    some "Username can only contain letters, numbers, and underscores"
  else none

/-- `validation.validatePassword` from the source. -/
def validatePassword (password : String) : Option String :=
  if jsTrim password = "" then some "Password is required"
  else if password.length < 6 then some "Password must be at least 6 characters"
  else none

/-- `validation.validateTheme` from the source (`!theme` is JavaScript
falsity of the stored string, i.e. the empty string). -/
def validateTheme (theme : String) : Option String :=
  if theme = "" then some "Please select a theme"
  else none

end validation

/-! ### validateStep -/

/-- The `newErrors` object built by `validateStep`'s `switch`: the step's
own fields are assigned the raw validator result (possibly `null`), all
other keys are left absent.  A step outside 1..3 assigns nothing. -/
def newErrorsFor (fd : FormData) : Nat → ErrorMap
  | 1 => { emptyErrors with
      fullName := some (validation.validateFullName fd.fullName),
      email := some (validation.validateEmail fd.email) }
  | 2 => { emptyErrors with
      username := some (validation.validateUsername fd.username),
      password := some (validation.validatePassword fd.password) }
  | 3 => { emptyErrors with
      theme := some (validation.validateTheme fd.theme) }
  | _ => emptyErrors

/-- One entry of `Object.fromEntries(Object.entries(e).filter(([, error])
=> error !== null))`: a `null` entry is dropped, a message entry kept. -/
def filterEntry : Option (Option String) → Option (Option String)
  | some (some m) => some (some m)
  | _ => none

/-- Filter the `null` entries out of an errors object. -/
def ErrorMap.filtered (em : ErrorMap) : ErrorMap :=
  ⟨filterEntry em.fullName, filterEntry em.email, filterEntry em.username,
   filterEntry em.password, filterEntry em.theme, filterEntry em.newsletter⟩

/-- `Object.keys(em).length === 0`. -/
def ErrorMap.isEmptyMap (em : ErrorMap) : Bool :=
  em.fullName.isNone && em.email.isNone && em.username.isNone &&
  em.password.isNone && em.theme.isNone && em.newsletter.isNone

/-- The `filteredErrors` object computed by `validateStep`. -/
def validateStepFresh (fd : FormData) (step : Nat) : ErrorMap :=
  (newErrorsFor fd step).filtered

/-- `validateStep(step)` from the source: build the fresh filtered error
map, replace the live `errors` with it, and return whether it is empty. -/
def validateStep (s : FormState) (step : Nat) : FormState × Bool :=
  let filteredErrors := validateStepFresh s.formData step
  ({ s with errors := filteredErrors }, filteredErrors.isEmptyMap)

/-! ### updateField -/

/-- An `updateField(field, value)` call: the field together with the value
of its JavaScript type (a string for the five text/theme fields, a boolean
for the newsletter checkbox). -/
inductive FieldUpdate
  | fullName (v : String)
  | email (v : String)
  | username (v : String)
  | password (v : String)
  | theme (v : String)
  | newsletter (v : Bool)
deriving DecidableEq, Repr

/-- The field named by an update. -/
def FieldUpdate.field : FieldUpdate → FieldName
  | .fullName _ => .fullName
  | .email _ => .email
  | .username _ => .username
  | .password _ => .password
  | .theme _ => .theme
  | .newsletter _ => .newsletter

/-- `setFormData(prev => ({ ...prev, [field]: value }))`. -/
def applyUpdate (fd : FormData) : FieldUpdate → FormData
  | .fullName v => { fd with fullName := v }
  | .email v => { fd with email := v }
  | .username v => { fd with username := v }
  | .password v => { fd with password := v }
  | .theme v => { fd with theme := v }
  | .newsletter v => { fd with newsletter := v }

/-- `updateField` from the source: write the raw value, and if
`errors[field]` is truthy, remap that key to `null`. -/
def updateField (s : FormState) (u : FieldUpdate) : FormState :=
  let fd := applyUpdate s.formData u
  let errs :=
    if entryTruthy (s.errors.get u.field) then s.errors.setNull u.field
    else s.errors
  { s with formData := fd, errors := errs }

/-! ### Navigation, submission, reset, close -/

/-- `goToNextStep` from the source. -/
def goToNextStep (s : FormState) : FormState :=
  let r := validateStep s s.currentStep
  if r.2 then { r.1 with currentStep := min (r.1.currentStep + 1) 3 }
  else r.1

/-- `goToPreviousStep` from the source. -/
def goToPreviousStep (s : FormState) : FormState :=
  { s with currentStep := max (s.currentStep - 1) 1, errors := emptyErrors }

/-- The observable effects of `submitForm` beyond the state: the
`setIsSubmitting` writes and the single awaited finalize call, in order. -/
inductive SubmitEvent
  | setSubmitting (b : Bool)
  | finalize
deriving DecidableEq, Repr

/-- `submitForm` from the source, with the asynchronous finalize operation
abstracted by its outcome `finalizeOk` (`false` models the awaited promise
rejecting, which the `catch` turns into a `false` return).  Returns the
final state, the boolean result, and the trace of submission events. -/
def submitForm (s : FormState) (finalizeOk : Bool) :
    FormState × Bool × List SubmitEvent :=
  let r := validateStep s 3
  if !r.2 then (r.1, false, [])
  else
    let s1 := { r.1 with isSubmitting := true }
    let result := finalizeOk
    let s2 := { s1 with isSubmitting := false }
    (s2, result,
      [SubmitEvent.setSubmitting true, SubmitEvent.finalize,
       SubmitEvent.setSubmitting false])

/-- `resetForm` from the source. -/
def resetForm (_s : FormState) : FormState :=
  { formData := { fullName := "", email := "", username := "",
                  password := "", theme := "", newsletter := false },
    errors := emptyErrors, currentStep := 1, isSubmitting := false }

/-- The modal component's state visible to `handleCloseModal`: the hook
state plus the `isOpen` flag. -/
structure ModalState where
  form : FormState
  isOpen : Bool
deriving DecidableEq, Repr

/-- `Object.values(formData).some(value => typeof value === 'string' ?
value.trim() : value)` over the six fields in insertion order. -/
def hasDataCheck (fd : FormData) : Bool :=
  (jsTrim fd.fullName != "") || (jsTrim fd.email != "") ||
  (jsTrim fd.username != "") || (jsTrim fd.password != "") ||
  (jsTrim fd.theme != "") || fd.newsletter

/-- `handleCloseModal` from the source, with the blocking
`window.confirm` abstracted by its boolean answer `confirmAccept`. -/
def handleCloseModal (m : ModalState) (confirmAccept : Bool) : ModalState :=
  if hasDataCheck m.form.formData && !confirmAccept then m
  else { form := resetForm m.form, isOpen := false }

/-! ### Operation sequences and reachability -/

/-- One call into the hook. -/
inductive Op
  | update (u : FieldUpdate)
  | validate (step : Nat)
  | next
  | prev
  | submit (finalizeOk : Bool)
  | reset
deriving DecidableEq, Repr

/-- The state after one operation. -/
def applyOp (s : FormState) : Op → FormState
  | .update u => updateField s u
  | .validate step => (validateStep s step).1
  | .next => goToNextStep s
  | .prev => goToPreviousStep s
  | .submit b => (submitForm s b).1
  | .reset => resetForm s

/-- The state after a sequence of operations. -/
def applyOps (s : FormState) (ops : List Op) : FormState :=
  ops.foldl applyOp s

/-- A state is reachable when some call sequence produces it from the
initial state. -/
def Reachable (s : FormState) : Prop :=
  ∃ ops : List Op, applyOps initState ops = s

/-! ### Specification-side descriptions -/

/-- The validator owning a field, applied to the current form data
(`newsletter` is never validated). -/
def fieldValidator (f : FieldName) (fd : FormData) : Option String :=
  match f with
  | .fullName => validation.validateFullName fd.fullName
  | .email => validation.validateEmail fd.email
  | .username => validation.validateUsername fd.username
  | .password => validation.validatePassword fd.password
  | .theme => validation.validateTheme fd.theme
  | .newsletter => none

/-- The step→field ownership table of the specification. -/
def ownedBy (step : Nat) (f : FieldName) : Bool :=
  match step, f with
  | 1, .fullName => true
  | 1, .email => true
  | 2, .username => true
  | 2, .password => true
  | 3, .theme => true
  | _, _ => false

/-- Specification-side description of one entry of the fresh map built by
`validateStep`: owned and currently failing fields carry their message,
every other key is absent. -/
def specFreshEntry (fd : FormData) (step : Nat) (f : FieldName) :
    Option (Option String) :=
  if ownedBy step f then (fieldValidator f fd).map some else none

/-- Modelled from the spec's description of the email pattern: one or more
non-space-non-@ characters, then `@`, then one or more non-space-non-@
characters, then `.`, then one or more non-space-non-@ characters. -/
def EmailPattern (s : String) : Prop :=
  ∃ a b c : List Char,
    s.data = a ++ '@' :: (b ++ '.' :: c) ∧
    a ≠ [] ∧ b ≠ [] ∧ c ≠ [] ∧
    a.all isEmailChar = true ∧ b.all isEmailChar = true ∧
    c.all isEmailChar = true

/-- Specification-side dirtiness: some string field non-empty after
trimming, or the newsletter flag set, or a theme selected. -/
def dirtySpec (fd : FormData) : Prop :=
  jsTrim fd.fullName ≠ "" ∨ jsTrim fd.email ≠ "" ∨
  jsTrim fd.username ≠ "" ∨ jsTrim fd.password ≠ "" ∨
  fd.newsletter = true ∨ fd.theme ≠ ""

instance (fd : FormData) : Decidable (dirtySpec fd) := by
  unfold dirtySpec
  infer_instance

/-! ### Helper lemmas -/

lemma filterEntry_some (v : Option String) :
    filterEntry (some v) = v.map some := by
  cases v <;> rfl

lemma filterEntry_none : filterEntry none = none := rfl

/-- Each entry of the fresh map built by `validateStep` agrees with the
specification-side table-driven description. -/
lemma get_validateStepFresh (fd : FormData) (step : Nat) (f : FieldName) :
    (validateStepFresh fd step).get f = specFreshEntry fd step f := by
  rcases step with _ | _ | _ | _ | step <;> cases f <;>
    simp [validateStepFresh, newErrorsFor, ErrorMap.filtered, ErrorMap.get,
      specFreshEntry, ownedBy, fieldValidator, filterEntry_some,
      filterEntry_none, emptyErrors]

lemma isEmptyMap_iff (em : ErrorMap) :
    em.isEmptyMap = true ↔ ∀ f, em.get f = none := by
  constructor
  · intro h
    have h2 : em.fullName = none ∧ em.email = none ∧ em.username = none ∧
        em.password = none ∧ em.theme = none ∧ em.newsletter = none := by
      simpa [ErrorMap.isEmptyMap, Bool.and_eq_true, and_assoc,
        Option.isNone_iff_eq_none] using h
    intro f
    cases f <;> simp [ErrorMap.get, h2.1, h2.2.1, h2.2.2.1, h2.2.2.2.1,
      h2.2.2.2.2.1, h2.2.2.2.2.2]
  · intro h
    simp only [ErrorMap.isEmptyMap, Bool.and_eq_true, and_assoc,
      Option.isNone_iff_eq_none]
    exact ⟨h .fullName, h .email, h .username, h .password, h .theme,
      h .newsletter⟩

lemma setNull_get_self (em : ErrorMap) (f : FieldName) :
    (em.setNull f).get f = some none := by
  cases f <;> rfl

lemma setNull_get_ne (em : ErrorMap) (f g : FieldName) (h : f ≠ g) :
    (em.setNull g).get f = em.get f := by
  cases g <;> cases f <;> simp_all [ErrorMap.setNull, ErrorMap.get]

/-- A field not named by an update keeps its validator verdict. -/
lemma fieldValidator_update_ne (fd : FormData) (u : FieldUpdate)
    (f : FieldName) (h : f ≠ u.field) :
    fieldValidator f (applyUpdate fd u) = fieldValidator f fd := by
  cases u <;> cases f <;>
    simp_all [applyUpdate, fieldValidator, FieldUpdate.field]

/-- No validator ever produces the empty string as a message. -/
lemma fieldValidator_msg_ne (f : FieldName) (fd : FormData) (m : String)
    (h : fieldValidator f fd = some m) : m ≠ "" := by
  cases f <;>
    (simp only [fieldValidator, validation.validateEmail,
        validation.validateFullName, validation.validateUsername,
        validation.validatePassword, validation.validateTheme] at h
     first
     | exact Option.noConfusion h
     | (split_ifs at h <;>
         first
         | exact Option.noConfusion h
         | (injection h with h; subst h; decide)))

lemma emptyErrors_get (f : FieldName) : emptyErrors.get f = none := by
  cases f <;> rfl

lemma specFreshEntry_msg (fd : FormData) (step : Nat) (f : FieldName)
    (m : String) (h : specFreshEntry fd step f = some (some m)) :
    fieldValidator f fd = some m := by
  unfold specFreshEntry at h
  split at h
  · rw [Option.map_eq_some'] at h
    obtain ⟨a, ha, hb⟩ := h
    injection hb with hb
    subst hb
    exact ha
  · exact Option.noConfusion h

/-- The error-map invariant: every entry holding a message records exactly
the current verdict of its field's validator. -/
def ErrInv (s : FormState) : Prop :=
  ∀ f m, s.errors.get f = some (some m) → fieldValidator f s.formData = some m

lemma errInv_of_fresh_errors (s2 : FormState) (fd : FormData) (step : Nat)
    (hfd : s2.formData = fd) (herr : s2.errors = validateStepFresh fd step) :
    ErrInv s2 := by
  intro f m h
  rw [herr, get_validateStepFresh] at h
  rw [hfd]
  exact specFreshEntry_msg fd step f m h

lemma errInv_init : ErrInv initState := by
  intro f m h
  rw [show initState.errors = emptyErrors from rfl, emptyErrors_get] at h
  exact Option.noConfusion h

lemma errInv_update (s : FormState) (hs : ErrInv s) (u : FieldUpdate) :
    ErrInv (updateField s u) := by
  intro f m h
  have hfd : (updateField s u).formData = applyUpdate s.formData u := rfl
  have herr : (updateField s u).errors =
      if entryTruthy (s.errors.get u.field) then s.errors.setNull u.field
      else s.errors := rfl
  rw [herr] at h
  rw [hfd]
  by_cases hf : f = u.field
  · subst hf
    by_cases ht : entryTruthy (s.errors.get u.field) = true
    · rw [if_pos ht, setNull_get_self] at h
      injection h with h
      exact Option.noConfusion h
    · rw [if_neg ht] at h
      have hv := hs u.field m h
      have hne := fieldValidator_msg_ne u.field s.formData m hv
      refine absurd ?_ ht
      rw [h]
      simp [entryTruthy, hne]
  · have hget : s.errors.get f = some (some m) := by
      by_cases ht : entryTruthy (s.errors.get u.field) = true
      · rw [if_pos ht, setNull_get_ne _ _ _ hf] at h
        exact h
      · rw [if_neg ht] at h
        exact h
    rw [fieldValidator_update_ne s.formData u f hf]
    exact hs f m hget

lemma errInv_applyOp (s : FormState) (hs : ErrInv s) (op : Op) :
    ErrInv (applyOp s op) := by
  cases op with
  | update u => exact errInv_update s hs u
  | validate step =>
    exact errInv_of_fresh_errors _ s.formData step
      (by simp [applyOp, validateStep]) (by simp [applyOp, validateStep])
  | next =>
    by_cases hb : (validateStepFresh s.formData s.currentStep).isEmptyMap = true
    · exact errInv_of_fresh_errors _ s.formData s.currentStep
        (by simp [applyOp, goToNextStep, validateStep, hb])
        (by simp [applyOp, goToNextStep, validateStep, hb])
    · exact errInv_of_fresh_errors _ s.formData s.currentStep
        (by simp [applyOp, goToNextStep, validateStep, hb])
        (by simp [applyOp, goToNextStep, validateStep, hb])
  | prev =>
    intro f m h
    rw [show (applyOp s Op.prev).errors = emptyErrors from rfl,
      emptyErrors_get] at h
    exact Option.noConfusion h
  | submit b =>
    by_cases hb : (validateStepFresh s.formData 3).isEmptyMap = true
    · exact errInv_of_fresh_errors _ s.formData 3
        (by simp [applyOp, submitForm, validateStep, hb])
        (by simp [applyOp, submitForm, validateStep, hb])
    · exact errInv_of_fresh_errors _ s.formData 3
        (by simp [applyOp, submitForm, validateStep, hb])
        (by simp [applyOp, submitForm, validateStep, hb])
  | reset =>
    intro f m h
    rw [show (applyOp s Op.reset).errors = emptyErrors from rfl,
      emptyErrors_get] at h
    exact Option.noConfusion h

lemma errInv_applyOps (ops : List Op) (s : FormState) (hs : ErrInv s) :
    ErrInv (applyOps s ops) := by
  induction ops generalizing s with
  | nil => exact hs
  | cons op rest ih => exact ih (applyOp s op) (errInv_applyOp s hs op)

lemma errInv_reachable (s : FormState) (h : Reachable s) : ErrInv s := by
  obtain ⟨ops, hops⟩ := h
  exact hops ▸ errInv_applyOps ops initState errInv_init

/-! ### The email regex matches the specified pattern -/

lemma splitAtChar_eq (c : Char) :
    ∀ l a d : List Char, splitAtChar c l = some (a, d) →
      l = a ++ c :: d ∧ c ∉ a := by
  intro l
  induction l with
  | nil => intro a d h; exact Option.noConfusion h
  | cons x xs ih =>
    intro a d h
    simp only [splitAtChar] at h
    by_cases hx : x = c
    · rw [if_pos hx] at h
      injection h with h2
      simp only [Prod.mk.injEq] at h2
      obtain ⟨rfl, rfl⟩ := h2
      simp [hx]
    · rw [if_neg hx] at h
      rcases hsp : splitAtChar c xs with _ | ⟨a2, d2⟩
      · rw [hsp] at h; exact Option.noConfusion h
      · rw [hsp] at h
        injection h with h2
        simp only [Prod.mk.injEq] at h2
        obtain ⟨rfl, rfl⟩ := h2
        obtain ⟨hl, hni⟩ := ih a2 d2 hsp
        subst hl
        refine ⟨by simp, ?_⟩
        intro hm
        rcases List.mem_cons.mp hm with hm | hm
        · exact hx hm.symm
        · exact hni hm

lemma splitAtChar_append (c : Char) (a d : List Char) (hna : c ∉ a) :
    splitAtChar c (a ++ c :: d) = some (a, d) := by
  induction a with
  | nil => simp [splitAtChar]
  | cons x xs ih =>
    have hx : ¬ x = c := fun hh => hna (by simp [hh])
    have hxs : c ∉ xs := fun hm => hna (List.mem_cons_of_mem _ hm)
    simp only [List.cons_append, splitAtChar, if_neg hx]
    simp [ih hxs]

lemma hasInteriorDot_iff (d : List Char) :
    hasInteriorDot d = true ↔
      ∃ b c2 : List Char, d = b ++ '.' :: c2 ∧ b ≠ [] ∧ c2 ≠ [] := by
  constructor
  · intro h
    cases d with
    | nil => exact Bool.noConfusion h
    | cons x rest =>
      simp only [hasInteriorDot] at h
      have hm : '.' ∈ rest.dropLast := by simpa using h
      obtain ⟨u, v, huv⟩ := List.append_of_mem hm
      have hrest : rest ≠ [] := by
        intro hr
        rw [hr] at huv
        exact absurd huv (by simp)
      refine ⟨x :: u, v ++ [rest.getLast hrest], ?_, by simp, by simp⟩
      have hsplit := List.dropLast_append_getLast hrest
      calc x :: rest = x :: (rest.dropLast ++ [rest.getLast hrest]) := by
            rw [hsplit]
        _ = x :: (u ++ '.' :: v ++ [rest.getLast hrest]) := by rw [huv]
        _ = (x :: u) ++ '.' :: (v ++ [rest.getLast hrest]) := by simp
  · rintro ⟨b, c2, rfl, hb, hc⟩
    cases b with
    | nil => exact absurd rfl hb
    | cons x bs =>
      simp only [List.cons_append, hasInteriorDot]
      have hdl : (bs ++ '.' :: c2).dropLast = bs ++ ('.' :: c2).dropLast :=
        List.dropLast_append_of_ne_nil bs (by simp)
      rw [hdl, List.dropLast_cons_of_ne_nil hc]
      simp

lemma isEmailChar_at : isEmailChar '@' = false := by decide

lemma emailRegexTest_iff (s : String) :
    emailRegexTest s = true ↔ EmailPattern s := by
  constructor
  · intro h
    unfold emailRegexTest at h
    rcases hsp : splitAtChar '@' s.data with _ | ⟨a, d⟩
    · rw [hsp] at h; exact Bool.noConfusion h
    · rw [hsp] at h
      simp only [Bool.and_eq_true] at h
      obtain ⟨⟨⟨hne, hal⟩, hdl⟩, hdot⟩ := h
      obtain ⟨hdata, _⟩ := splitAtChar_eq '@' s.data a d hsp
      obtain ⟨b, c2, rfl, hb, hc⟩ := (hasInteriorDot_iff d).mp hdot
      rw [List.all_append, Bool.and_eq_true] at hdl
      obtain ⟨hball, hcons⟩ := hdl
      rw [List.all_cons, Bool.and_eq_true] at hcons
      refine ⟨a, b, c2, by rw [hdata], ?_, hb, hc, hal, hball, hcons.2⟩
      intro ha
      rw [ha] at hne
      exact Bool.noConfusion hne
  · rintro ⟨a, b, c2, hdata, ha, hb, hc, haall, hball, hcall⟩
    have hna : '@' ∉ a := by
      intro hm
      have := List.all_eq_true.mp haall '@' hm
      rw [isEmailChar_at] at this
      exact Bool.noConfusion this
    unfold emailRegexTest
    rw [hdata, splitAtChar_append '@' a (b ++ '.' :: c2) hna]
    simp only [Bool.and_eq_true]
    refine ⟨⟨⟨by simpa using ha, haall⟩, ?_⟩, ?_⟩
    · rw [List.all_append]
      simp only [Bool.and_eq_true]
      exact ⟨hball, by simp [hcall, isEmailChar]⟩
    · exact (hasInteriorDot_iff _).mpr ⟨b, c2, rfl, hb, hc⟩

/-! ### Concrete states used by witnesses -/

/-- The state after validating step 1 on the pristine form: both step-1
fields carry their required-message errors. -/
def stateFullNameError : FormState := (validateStep initState 1).1

/-- A pristine form whose step-1 fields are filled in validly. -/
def stateStep1Ok : FormState :=
  { initState with formData := { initFormData with fullName := "Jo", email := "jo@x.com" } }

/-- A pristine form with a theme selected, so step 3 validates. -/
def stateStep3Ok : FormState :=
  { initState with formData := { initFormData with theme := "Dark" } }

/-! ### Claims -/

/-- C5: for every step in {1,2,3}, `validateStep` leaves the form data,
current step and submission flag unchanged, replaces the entire live
ErrorMap with a fresh map whose entries are exactly the failing owned
validators' messages (per the step→field ownership table), and returns
`true` exactly when that fresh map is empty. -/
theorem claim_C5_validateStep_overwrites (s : FormState) (step : Nat)
    (_hstep : step = 1 ∨ step = 2 ∨ step = 3) :
    ((validateStep s step).1.formData = s.formData
      ∧ (validateStep s step).1.currentStep = s.currentStep
      ∧ (validateStep s step).1.isSubmitting = s.isSubmitting)
    ∧ (∀ f, (validateStep s step).1.errors.get f = specFreshEntry s.formData step f)
    ∧ ((validateStep s step).2 = true ↔
        ∀ f, specFreshEntry s.formData step f = none) := by
  refine ⟨⟨rfl, rfl, rfl⟩, fun f => get_validateStepFresh s.formData step f, ?_⟩
  rw [show (validateStep s step).2 = (validateStepFresh s.formData step).isEmptyMap from rfl,
    isEmptyMap_iff]
  constructor
  · intro h f
    rw [← get_validateStepFresh]
    exact h f
  · intro h f
    rw [get_validateStepFresh]
    exact h f

/-- Witness for C5 at step 1 on the pristine form. -/
theorem claim_C5_witness :
    (validateStep initState 1).1.errors.get FieldName.fullName =
      specFreshEntry initState.formData 1 FieldName.fullName :=
  (claim_C5_validateStep_overwrites initState 1 (Or.inl rfl)).2.1 FieldName.fullName

/-- C10: for a step outside {1,2,3}, `validateStep` replaces the ErrorMap
with the empty map, discarding previous errors, and reports success. -/
theorem claim_C10_validateStep_other_steps (s : FormState) (step : Nat)
    (h1 : step ≠ 1) (h2 : step ≠ 2) (h3 : step ≠ 3) :
    validateStep s step = ({ s with errors := emptyErrors }, true) := by
  rcases step with _ | _ | _ | _ | n
  · rfl
  · exact absurd rfl h1
  · exact absurd rfl h2
  · exact absurd rfl h3
  · rfl

/-- Witness for C10: step 0 on a state that holds step-1 errors. -/
theorem claim_C10_witness :
    validateStep stateFullNameError 0 =
      ({ stateFullNameError with errors := emptyErrors }, true) :=
  claim_C10_validateStep_other_steps stateFullNameError 0 (by decide) (by decide)
    (by decide)

/-- C1: `goToNextStep` changes `currentStep` only when validating the
current step succeeds, in which case the step is advanced by one clamped
to 3; on validation failure the step is unchanged and the ErrorMap equals
exactly the failing validators' messages for the current step. -/
theorem claim_C1_goToNextStep_gated (s : FormState) :
    ((validateStep s s.currentStep).2 = true →
        (goToNextStep s).currentStep = min (s.currentStep + 1) 3)
    ∧ ((validateStep s s.currentStep).2 = false →
        (goToNextStep s).currentStep = s.currentStep
        ∧ (∀ f, (goToNextStep s).errors.get f =
            specFreshEntry s.formData s.currentStep f))
    ∧ ((goToNextStep s).currentStep ≠ s.currentStep →
        (validateStep s s.currentStep).2 = true) := by
  by_cases hb : (validateStep s s.currentStep).2 = true
  · have hg : goToNextStep s =
        { (validateStep s s.currentStep).1 with
          currentStep := min ((validateStep s s.currentStep).1.currentStep + 1) 3 } := by
      simp only [goToNextStep, hb, if_true]
    refine ⟨fun _ => ?_, fun hf => absurd hb (by simp [hf]), fun _ => hb⟩
    rw [hg]
    rfl
  · have hb2 : (validateStep s s.currentStep).2 = false := by
      revert hb
      cases (validateStep s s.currentStep).2 <;> simp
    have hg : goToNextStep s = (validateStep s s.currentStep).1 := by
      simp only [goToNextStep, hb2, Bool.false_eq_true, if_false]
    refine ⟨fun h => absurd h hb, fun _ => ⟨by rw [hg]; rfl, fun f => ?_⟩,
      fun hc => ?_⟩
    · rw [hg]
      exact get_validateStepFresh s.formData s.currentStep f
    · exact absurd (show (goToNextStep s).currentStep = s.currentStep by
        rw [hg]; rfl) hc

/-- Witness for C1: the pristine form fails step-1 validation, so
`goToNextStep` keeps the step and records the required-field messages;
a validly filled step 1 advances. -/
theorem claim_C1_witness :
    ((goToNextStep initState).currentStep = initState.currentStep
      ∧ (goToNextStep initState).errors.get FieldName.email =
          specFreshEntry initState.formData initState.currentStep FieldName.email)
    ∧ (goToNextStep stateStep1Ok).currentStep = min (stateStep1Ok.currentStep + 1) 3 := by
  refine ⟨?_, (claim_C1_goToNextStep_gated stateStep1Ok).1 (by decide)⟩
  have h := (claim_C1_goToNextStep_gated initState).2.1 (by decide)
  exact ⟨h.1, h.2 FieldName.email⟩

/-- C6: `goToPreviousStep` unconditionally decrements `currentStep`
clamped at 1 and empties the whole ErrorMap, leaving the form data and
submission flag untouched. -/
theorem claim_C6_goToPreviousStep (s : FormState) :
    ((goToPreviousStep s).currentStep =
        if 1 < s.currentStep then s.currentStep - 1 else 1)
    ∧ (∀ f, (goToPreviousStep s).errors.get f = none)
    ∧ (goToPreviousStep s).formData = s.formData
    ∧ (goToPreviousStep s).isSubmitting = s.isSubmitting := by
  refine ⟨?_, fun f => emptyErrors_get f, rfl, rfl⟩
  show max (s.currentStep - 1) 1 = _
  split_ifs with h <;> omega

/-- C7: `resetForm` yields exactly the initial state and is idempotent. -/
theorem claim_C7_resetForm (s : FormState) :
    ((resetForm s).formData.fullName = "" ∧ (resetForm s).formData.email = ""
      ∧ (resetForm s).formData.username = ""
      ∧ (resetForm s).formData.password = ""
      ∧ (resetForm s).formData.theme = ""
      ∧ (resetForm s).formData.newsletter = false)
    ∧ (∀ f, (resetForm s).errors.get f = none)
    ∧ (resetForm s).currentStep = 1
    ∧ (resetForm s).isSubmitting = false
    ∧ resetForm (resetForm s) = resetForm s ∧ resetForm s = initState :=
  ⟨⟨rfl, rfl, rfl, rfl, rfl, rfl⟩, fun f => emptyErrors_get f, rfl, rfl, rfl, rfl⟩

/-- C2: `submitForm` validates step 3 first; on failure it returns false,
performs no submission event (the finalize operation is never invoked) and
leaves the submission flag as it was; on success it emits exactly the
trace Submitting→finalize→Idle, invokes finalize exactly once, ends with
the flag back to false, and returns the finalize outcome (a rejection is
caught and becomes a `false` return).  It never changes `currentStep`. -/
theorem claim_C2_submitForm (s : FormState) (finalizeOk : Bool) :
    (submitForm s finalizeOk).1.currentStep = s.currentStep
    ∧ ((validateStep s 3).2 = false →
        (submitForm s finalizeOk).2.1 = false
        ∧ (submitForm s finalizeOk).2.2 = []
        ∧ (submitForm s finalizeOk).1.isSubmitting = s.isSubmitting)
    ∧ ((validateStep s 3).2 = true →
        (submitForm s finalizeOk).2.2 =
          [SubmitEvent.setSubmitting true, SubmitEvent.finalize,
            SubmitEvent.setSubmitting false]
        ∧ ((submitForm s finalizeOk).2.2.count SubmitEvent.finalize = 1)
        ∧ (submitForm s finalizeOk).1.isSubmitting = false
        ∧ (submitForm s finalizeOk).2.1 = finalizeOk) := by
  by_cases hb : (validateStep s 3).2 = true
  · have hs : submitForm s finalizeOk =
        ({ { (validateStep s 3).1 with isSubmitting := true } with
            isSubmitting := false }, finalizeOk,
          [SubmitEvent.setSubmitting true, SubmitEvent.finalize,
            SubmitEvent.setSubmitting false]) := by
      simp only [submitForm, hb, Bool.not_true, Bool.false_eq_true, if_false]
    refine ⟨by rw [hs]; rfl, fun hf => absurd hb (by simp [hf]), fun _ => ?_⟩
    rw [hs]
    exact ⟨rfl, rfl, rfl, rfl⟩
  · have hb2 : (validateStep s 3).2 = false := by
      revert hb
      cases (validateStep s 3).2 <;> simp
    have hs : submitForm s finalizeOk = ((validateStep s 3).1, false, []) := by
      simp only [submitForm, hb2, Bool.not_false, if_true]
    refine ⟨by rw [hs]; rfl, fun _ => ?_, fun ht => absurd ht (by simp [hb2])⟩
    rw [hs]
    exact ⟨rfl, rfl, rfl⟩

/-- Witness for C2: the pristine form fails step-3 validation (no theme),
a form with a theme succeeds. -/
theorem claim_C2_witness :
    ((submitForm initState true).2.1 = false
      ∧ (submitForm initState true).2.2 = []
      ∧ (submitForm initState true).1.isSubmitting = initState.isSubmitting)
    ∧ ((submitForm stateStep3Ok true).2.2 =
        [SubmitEvent.setSubmitting true, SubmitEvent.finalize,
          SubmitEvent.setSubmitting false]
      ∧ ((submitForm stateStep3Ok true).2.2.count SubmitEvent.finalize = 1)
      ∧ (submitForm stateStep3Ok true).1.isSubmitting = false
      ∧ (submitForm stateStep3Ok true).2.1 = true) :=
  ⟨(claim_C2_submitForm initState true).2.1 (by decide),
   (claim_C2_submitForm stateStep3Ok true).2.2 (by decide)⟩

/-- Whether, after an update, a read of the updated field returns the
written value. -/
def readsBack (fd : FormData) : FieldUpdate → Prop
  | .fullName v => fd.fullName = v
  | .email v => fd.email = v
  | .username v => fd.username = v
  | .password v => fd.password = v
  | .theme v => fd.theme = v
  | .newsletter v => fd.newsletter = v

/-- Claim C3 exactly as stated: after `updateField` the written value
reads back, a previously recorded error leaves the updated field's key
absent from the ErrorMap, and all other entries are untouched. -/
def ClaimC3Stmt : Prop :=
  ∀ (s : FormState) (u : FieldUpdate),
    readsBack (updateField s u).formData u
    ∧ (entryTruthy (s.errors.get u.field) = true →
        (updateField s u).errors.get u.field = none)
    ∧ (∀ g, g ≠ u.field → (updateField s u).errors.get g = s.errors.get g)

/-- C3 as stated is false: editing a field whose error is recorded leaves
the key present, mapped to `null`, rather than removing it. -/
theorem claim_C3_counterexample : ¬ ClaimC3Stmt := by
  intro h
  have h2 := (h stateFullNameError (FieldUpdate.fullName "Jo")).2.1 (by decide)
  exact absurd h2 (by decide)

/-- C3 amended: `updateField` sets the raw value unconditionally with no
re-validation and the value reads back; if an error was recorded for the
field, its entry is remapped to `null` (still present, but holding no
message) rather than removed; all other fields' entries are untouched. -/
theorem claim_C3_updateField (s : FormState) (u : FieldUpdate) :
    readsBack (updateField s u).formData u
    ∧ (entryTruthy (s.errors.get u.field) = true →
        (updateField s u).errors.get u.field = some none)
    ∧ (∀ g, g ≠ u.field → (updateField s u).errors.get g = s.errors.get g) := by
  refine ⟨?_, ?_, ?_⟩
  · cases u <;> rfl
  · intro ht
    have he : (updateField s u).errors = s.errors.setNull u.field := by
      simp [updateField, ht]
    rw [he, setNull_get_self]
  · intro g hg
    by_cases ht : entryTruthy (s.errors.get u.field) = true
    · have he : (updateField s u).errors = s.errors.setNull u.field := by
        simp [updateField, ht]
      rw [he, setNull_get_ne _ _ _ hg]
    · have he : (updateField s u).errors = s.errors := by
        simp [updateField, ht]
      rw [he]

/-- Witness for the amended C3 on a state with a recorded fullName
error. -/
theorem claim_C3_witness :
    readsBack (updateField stateFullNameError (FieldUpdate.fullName "Jo")).formData
        (FieldUpdate.fullName "Jo")
    ∧ (updateField stateFullNameError (FieldUpdate.fullName "Jo")).errors.get
        FieldName.fullName = some none
    ∧ (updateField stateFullNameError (FieldUpdate.fullName "Jo")).errors.get
        FieldName.email = stateFullNameError.errors.get FieldName.email := by
  obtain ⟨h1, h2, h3⟩ :=
    claim_C3_updateField stateFullNameError (FieldUpdate.fullName "Jo")
  exact ⟨h1, h2 (by decide), h3 FieldName.email (by decide)⟩

/-- Claim C4 exactly as stated: in every reachable state a key is present
only if its validator currently fails, and no key is mapped to null or to
an empty message. -/
def ClaimC4Stmt : Prop :=
  ∀ s : FormState, Reachable s → ∀ f : FieldName,
    ((s.errors.get f).isSome = true → (fieldValidator f s.formData).isSome = true)
    ∧ s.errors.get f ≠ some none
    ∧ (∀ m, s.errors.get f = some (some m) → m ≠ "")

/-- C4 as stated is false: validating step 1 on the pristine form and then
editing `fullName` reaches a state whose ErrorMap maps `fullName` to
`null`. -/
theorem claim_C4_counterexample : ¬ ClaimC4Stmt := by
  intro h
  have h2 := (h (applyOps initState
      [Op.validate 1, Op.update (FieldUpdate.fullName "Jo")])
      ⟨[Op.validate 1, Op.update (FieldUpdate.fullName "Jo")], rfl⟩
      FieldName.fullName).2.1
  exact h2 (by decide)

/-- C4 amended: in every reachable state, a key holding a message does so
only if its validator currently fails on the stored value — indeed the
message is exactly the validator's current message — and no message is
empty; however a key may remain present mapped to `null` after
`updateField`. -/
theorem claim_C4_errorMap_invariant (s : FormState) (h : Reachable s) :
    ∀ f m, s.errors.get f = some (some m) →
      fieldValidator f s.formData = some m ∧ m ≠ "" := by
  intro f m hm
  have hv := errInv_reachable s h f m hm
  exact ⟨hv, fieldValidator_msg_ne f s.formData m hv⟩

/-- Witness for the amended C4 on the reachable state holding step-1
errors. -/
theorem claim_C4_witness :
    fieldValidator FieldName.fullName
        (applyOps initState [Op.validate 1]).formData =
      some "Full name is required"
    ∧ "Full name is required" ≠ "" :=
  claim_C4_errorMap_invariant (applyOps initState [Op.validate 1])
    ⟨[Op.validate 1], rfl⟩ FieldName.fullName "Full name is required" (by decide)

lemma jsTrim_empty : jsTrim "" = "" := by decide

lemma jsTrim_light : jsTrim "Light" = "Light" := by decide

lemma jsTrim_dark : jsTrim "Dark" = "Dark" := by decide

lemma light_ne_empty : ("Light" : String) ≠ "" := by decide

lemma dark_ne_empty : ("Dark" : String) ≠ "" := by decide

/-- C8: for a form whose theme is a legal encoding (`None`/`Light`/`Dark`),
`handleCloseModal` is dirty exactly when some string field is non-empty
after trimming, the newsletter flag is set, or a theme is selected; when
dirty and confirmation is declined, nothing changes; otherwise the modal
is marked not visible and the form reset. -/
theorem claim_C8_handleCloseModal (m : ModalState) (confirmAccept : Bool)
    (hTheme : m.form.formData.theme = "" ∨ m.form.formData.theme = "Light"
      ∨ m.form.formData.theme = "Dark") :
    (hasDataCheck m.form.formData = true ↔ dirtySpec m.form.formData)
    ∧ (dirtySpec m.form.formData → confirmAccept = false →
        handleCloseModal m confirmAccept = m)
    ∧ (¬ dirtySpec m.form.formData ∨ confirmAccept = true →
        handleCloseModal m confirmAccept =
          { form := resetForm m.form, isOpen := false }) := by
  have hiff : hasDataCheck m.form.formData = true ↔ dirtySpec m.form.formData := by
    rcases hTheme with h | h | h <;>
      simp only [hasDataCheck, dirtySpec, h, jsTrim_empty, jsTrim_light,
        jsTrim_dark, light_ne_empty, dark_ne_empty, Bool.or_eq_true,
        bne_iff_ne, ne_eq, not_true, not_false_iff] <;>
      tauto
  refine ⟨hiff, ?_, ?_⟩
  · intro hd hcf
    have hb : hasDataCheck m.form.formData = true := hiff.mpr hd
    simp [handleCloseModal, hb, hcf]
  · intro hor
    rcases hor with hnd | hca
    · have hb : hasDataCheck m.form.formData = false := by
        cases h2 : hasDataCheck m.form.formData
        · rfl
        · exact absurd (hiff.mp h2) hnd
      simp [handleCloseModal, hb]
    · simp [handleCloseModal, hca]

/-- Witness for C8 on a dirty modal (theme selected): declining keeps the
state, accepting closes and resets. -/
theorem claim_C8_witness :
    handleCloseModal { form := stateStep3Ok, isOpen := true } false =
      { form := stateStep3Ok, isOpen := true }
    ∧ handleCloseModal { form := stateStep3Ok, isOpen := true } true =
      { form := resetForm stateStep3Ok, isOpen := false } :=
  ⟨(claim_C8_handleCloseModal { form := stateStep3Ok, isOpen := true } false
      (Or.inr (Or.inr rfl))).2.1 (by decide) rfl,
   (claim_C8_handleCloseModal { form := stateStep3Ok, isOpen := true } true
      (Or.inr (Or.inr rfl))).2.2 (Or.inr rfl)⟩

/-- C9: `validateEmail` reports "Email is required" exactly when the
trimmed value is empty; otherwise it passes exactly when the raw value
matches the specified pattern (non-space-non-@ run, `@`, non-space-non-@
run, `.`, non-space-non-@ run) and reports "Please enter a valid email
address" exactly when it does not. -/
theorem claim_C9_validateEmail (s : String) :
    (validation.validateEmail s = some "Email is required" ↔ jsTrim s = "")
    ∧ (jsTrim s ≠ "" →
        ((validation.validateEmail s = none ↔ EmailPattern s)
        ∧ (validation.validateEmail s = some "Please enter a valid email address"
            ↔ ¬ EmailPattern s))) := by
  by_cases ht : jsTrim s = ""
  · refine ⟨⟨fun _ => ht, fun _ => ?_⟩, fun hcon => absurd ht hcon⟩
    simp [validation.validateEmail, ht]
  · have h1 : validation.validateEmail s =
        if emailRegexTest s then none
        else some "Please enter a valid email address" := by
      simp [validation.validateEmail, ht]
    have hreq : ¬ validation.validateEmail s = some "Email is required" := by
      rw [h1]
      split
      · exact fun hh => Option.noConfusion hh
      · intro hh
        injection hh with hh
        exact absurd hh (by decide)
    refine ⟨⟨fun hh => absurd hh hreq, fun hh => absurd hh ht⟩,
      fun _ => ⟨?_, ?_⟩⟩
    · rw [h1]
      cases hr : emailRegexTest s
      · rw [if_neg (by simp)]
        constructor
        · intro hh
          exact Option.noConfusion hh
        · intro hp
          have h2 := (emailRegexTest_iff s).mpr hp
          rw [hr] at h2
          exact Bool.noConfusion h2
      · rw [if_pos rfl]
        exact ⟨fun _ => (emailRegexTest_iff s).mp hr, fun _ => rfl⟩
    · rw [h1]
      cases hr : emailRegexTest s
      · rw [if_neg (by simp)]
        constructor
        · intro _ hp
          have h2 := (emailRegexTest_iff s).mpr hp
          rw [hr] at h2
          exact Bool.noConfusion h2
        · intro _
          rfl
      · rw [if_pos rfl]
        constructor
        · intro hh
          exact Option.noConfusion hh
        · intro hnp
          exact absurd ((emailRegexTest_iff s).mp hr) hnp

/-- Witness for C9: a concrete address matching the pattern passes. -/
theorem claim_C9_witness : validation.validateEmail "jo@x.com" = none := by
  have h := ((claim_C9_validateEmail "jo@x.com").2 (by decide)).1
  refine h.mpr ⟨['j', 'o'], ['x'], ['c', 'o', 'm'], by decide, by decide,
    by decide, by decide, by decide, by decide, by decide⟩
